import Mathlib

/-!
# Verification of the `cocotbext-i2c` slave protocol state machine

Shallow embedding of `src/cocotbext/i2c/i2c_slave.py` (class `I2cSlave`).

The slave is three concurrent reactive loops communicating through one shared
mutable record.  In the cooperative discrete-event scheduling of the host
simulator each reaction runs to completion without preemption, so the whole
core is faithfully modelled as a deterministic step function over an explicit
state record, driven by a trace of bus events:

* `Event.startE`  — SDA falling edge observed while SCL is high (`_detect_start`
  fires; the SCL-high guard is folded into the event alphabet);
* `Event.stopE`   — SDA rising edge observed while SCL is high (`_detect_stop`);
* `Event.fallE`   — SCL falling edge (`_falling_scl` reaction, after its
  quarter-bit settling delay, which has no state effect);
* `Event.riseE v` — SCL rising edge with observed SDA value `v` (`_rising_scl`).

Wire values are `Nat` restricted to `{0,1}` exactly as the Python code reads
them (`self.sda_o.value`) and writes them (`self.sda_i.value`).
Field names follow the source: `addr`, `start`, `stop`, `bit_pos`,
`address_phase`, `read_phase`, `write_phase`, `active`, `recv_byte`,
`recv_addr`, `val`, and `sda_i` for the level currently driven on the output
data line (open drain: `1` = released, `0` = pulled low).

In the source, `self.active` and `self.recv_byte` are not assigned in
`__init__`; they are first written before any guarded read can reach them
(`active` is only read under `address_phase`, which is set together with
`active` by `_detect_start`; `recv_byte` is zeroed at `bit_pos == 1` before it
is ORed into).  The embedding initialises them to `0`/`false`; no theorem
below depends on those initial values.
-/

/-- The shared mutable record of `I2cSlave` (the spec's `SlaveState`). -/
structure SlaveState where
  /-- Python `self.addr`: own 7-bit slave address (`addr & 0x7f`). -/
  addr : Nat
  /-- Python `self.start`: start-pending flag set by `_detect_start`. -/
  start : Bool
  /-- Python `self.stop`: latched stop-seen flag set by `_detect_stop`. -/
  stop : Bool
  /-- Python `self.bit_pos`: bit counter, 0 = idle, 1..8 = data bits, 9 = ACK slot. -/
  bit_pos : Nat
  /-- Python `self.address_phase`: decoding the first post-Start byte. -/
  address_phase : Bool
  /-- Python `self.read_phase`: transaction direction is read (slave transmits). -/
  read_phase : Bool
  /-- Python `self.write_phase`: transaction direction is write (slave receives). -/
  write_phase : Bool
  /-- Python `self.active`: address-matched flag (`recv_addr == self.addr`). -/
  active : Bool
  /-- Python `self.recv_byte`: shift register assembling the incoming byte. -/
  recv_byte : Nat
  /-- Python `self.recv_addr`: last decoded 7-bit address (`None` before any). -/
  recv_addr : Option Nat
  /-- Python `self.val`: data register transmitted on reads, seeded `0x81`. -/
  val : Nat
  /-- Python `self.sda_i.value`: level driven on the output data line (1 = released). -/
  sda_i : Nat
  deriving Repr, DecidableEq

/-- The state built by `I2cSlave.__init__` once the address check has passed
(lines 43–57 of the source; `sda_i` is initialised released, line 77). -/
def initState (addr : Nat) : SlaveState :=
  { addr := addr &&& 0x7f
    start := false
    stop := false
    bit_pos := 0
    address_phase := false
    read_phase := false
    write_phase := false
    active := false
    recv_byte := 0
    recv_addr := none
    val := 0x81
    sda_i := 1 }

/-- Constructor `I2cSlave.__init__`: raises (modelled as `Except.error`) when
`addr > 0x7f`, otherwise produces the initial state.  The raised Python
`Exception` is the spec's `ConfigurationError`; its message is the source's
f-string (which formats the address in decimal after a literal `0x`). -/
def mkI2cSlave (addr : Nat) : Except String SlaveState :=
  if addr > 0x7f then
    Except.error ("I2C can only accept addresses of 7 bits: 0x" ++ toString addr)
  else
    Except.ok (initState addr)

/-- One reaction of `_detect_start` (SDA fell while SCL high):
`start := True; bit_pos := 0; address_phase := True; active := False`. -/
def detectStart (s : SlaveState) : SlaveState :=
  { s with start := true, bit_pos := 0, address_phase := true, active := false }

/-- One reaction of `_detect_stop` (SDA rose while SCL high): `stop := True`. -/
def detectStop (s : SlaveState) : SlaveState :=
  { s with stop := true }

/-- One reaction of `_falling_scl` (after the settling delay):
release the line, advance the bit counter while active (9 wraps to 1),
then drive the ACK (pull low at slot 9) or the next read data bit. -/
def fallingScl (s : SlaveState) : SlaveState :=
  let s1 := { s with sda_i := 1 }
  let s2 :=
    if s1.start || !(s1.bit_pos == 0) then
      { s1 with
        bit_pos := if s1.bit_pos == 9 then 1 else s1.bit_pos + 1
        start := false }
    else s1
  if (s2.address_phase && s2.active) || s2.write_phase then
    if s2.bit_pos == 9 then { s2 with sda_i := 0 } else s2
  else if s2.read_phase then
    if !(s2.bit_pos == 0) && !(s2.bit_pos ≥ 9) then
      { s2 with sda_i := (s2.val >>> (8 - s2.bit_pos)) &&& 0x1 }
    else s2
  else s2

/-- One reaction of `_rising_scl` with observed SDA value `sda`:
shift the bit in, resolve address/direction at bit 8, bump the data
register after a completed read byte at slot 9, and leave the address
phase at slot 9. -/
def risingScl (sda : Nat) (s : SlaveState) : SlaveState :=
  let s1 :=
    if !(s.bit_pos == 0) && !(s.bit_pos ≥ 9) then
      let rb0 := if s.bit_pos == 1 then 0 else s.recv_byte
      let rb := rb0 ||| (sda <<< (8 - s.bit_pos))
      let sA := { s with recv_byte := rb }
      if sA.bit_pos == 8 then
        if sA.address_phase then
          let ra := rb >>> 1
          let sB := { sA with
            read_phase := false
            write_phase := false
            recv_addr := some ra
            active := ra == sA.addr }
          if sda == 1 then { sB with read_phase := true }
          else { sB with write_phase := true }
        else sA
      else sA
    else s
  let s2 :=
    if s1.read_phase && !s1.address_phase && s1.bit_pos == 9 then
      { s1 with val := s1.val + 1 }
    else s1
  if s2.bit_pos == 9 then { s2 with address_phase := false } else s2

/-- A bus event, exactly one handler reaction. -/
inductive Event where
  /-- SDA falling edge while SCL is high: Start condition. -/
  | startE : Event
  /-- SDA rising edge while SCL is high: Stop condition. -/
  | stopE : Event
  /-- SCL falling edge. -/
  | fallE : Event
  /-- SCL rising edge, sampling SDA value `sda`. -/
  | riseE (sda : Nat) : Event
  deriving Repr, DecidableEq

/-- Dispatch one event to its handler. -/
def step (s : SlaveState) : Event → SlaveState
  | Event.startE => detectStart s
  | Event.stopE => detectStop s
  | Event.fallE => fallingScl s
  | Event.riseE sda => risingScl sda s

/-- Run the slave over a trace of bus events. -/
def run (s : SlaveState) (es : List Event) : SlaveState :=
  es.foldl step s

/-- A state is reachable when some event trace leads to it from the initial
state of a successfully constructed slave. -/
def Reachable (s : SlaveState) : Prop :=
  ∃ a es, a ≤ 0x7f ∧ run (initState a) es = s

/-- Bit `k` of `B` as a wire value. -/
def bitOf (B k : Nat) : Nat := (B >>> k) &&& 1

/-- The falling/rising event pairs transmitting the eight bits of byte `B`,
MSB first. -/
def byteEvents (B : Nat) : List Event :=
  [Event.fallE, Event.riseE (bitOf B 7),
   Event.fallE, Event.riseE (bitOf B 6),
   Event.fallE, Event.riseE (bitOf B 5),
   Event.fallE, Event.riseE (bitOf B 4),
   Event.fallE, Event.riseE (bitOf B 3),
   Event.fallE, Event.riseE (bitOf B 2),
   Event.fallE, Event.riseE (bitOf B 1),
   Event.fallE, Event.riseE (bitOf B 0)]

/-- A Start condition followed by the eight bits of address byte `B`. -/
def addrEvents (B : Nat) : List Event :=
  Event.startE :: byteEvents B

/-- The ACK slot: SCL falls (counter reaches 9) and rises sampling `ackBit`. -/
def ackEvents (ackBit : Nat) : List Event :=
  [Event.fallE, Event.riseE ackBit]

/-- One full data-byte slot in a read transaction: eight bit slots (the value
sampled back is the released/driven line, taken here as 0) and the ACK slot
with the master holding the line low (ACK = 0). -/
def dataCycle : List Event :=
  byteEvents 0 ++ ackEvents 0

/-- Events of `n` consecutive read data-byte slots. -/
def nCycles (n : Nat) : List Event :=
  (List.replicate n dataCycle).flatten

/-- The state of the slave sitting at the ACK slot of a read transaction:
`bit_pos = 9`, read phase, address matched, data register `v`, shift
register `rb`, last decoded address `ra`, driven line at `sd`. -/
def readSteady (own v rb sd : Nat) (ra : Option Nat) : SlaveState :=
  { addr := own
    start := false
    stop := false
    bit_pos := 9
    address_phase := false
    read_phase := true
    write_phase := false
    active := true
    recv_byte := rb
    recv_addr := ra
    val := v
    sda_i := sd }

/-- The trace reaching the `k`-th bit slot (`k ∈ [1,8]`) of the first read
data byte of a matched read transaction at address `0x45`: Start, address
byte `0x8B = (0x45<<1)|1`, address ACK, then `k` falling edges (with the
intervening rising edges) of the first data byte. -/
def firstReadBitTrace (k : Nat) : List Event :=
  addrEvents 0x8B ++ ackEvents 0 ++ dataCycle.take (2 * k - 1)

set_option maxRecDepth 10000

/-! ## Helper lemmas -/

/-- Masking with `0x7f` is the identity on 7-bit values. -/
theorem and_0x7f_eq_self {n : Nat} (h : n ≤ 0x7f) : n &&& 0x7f = n := by
  have h2 : n < 2 ^ 7 := by omega
  calc n &&& 0x7f = n &&& (2 ^ 7 - 1) := by norm_num
    _ = n := Nat.and_pow_two_sub_one_of_lt_two_pow h2

/-- Running a concatenated trace is running the pieces in order. -/
theorem run_append (s : SlaveState) (l1 l2 : List Event) :
    run s (l1 ++ l2) = run (run s l1) l2 := by
  simp [run]

/-- Handler `_falling_scl` never touches the stop flag. -/
theorem fallingScl_stop (s : SlaveState) : (fallingScl s).stop = s.stop := by
  simp only [fallingScl]
  repeat' split
  all_goals rfl

/-- Handler `_rising_scl` never touches the stop flag. -/
theorem risingScl_stop (sda : Nat) (s : SlaveState) :
    (risingScl sda s).stop = s.stop := by
  simp only [risingScl]
  repeat' split
  all_goals rfl

/-- Handler `_rising_scl` never moves the bit counter. -/
theorem risingScl_bit_pos (sda : Nat) (s : SlaveState) :
    (risingScl sda s).bit_pos = s.bit_pos := by
  simp only [risingScl]
  repeat' split
  all_goals rfl

/-- Handler `_rising_scl` never touches the start-pending flag. -/
theorem risingScl_start (sda : Nat) (s : SlaveState) :
    (risingScl sda s).start = s.start := by
  simp only [risingScl]
  repeat' split
  all_goals rfl

/-- Handler `_falling_scl` never touches the data register. -/
theorem fallingScl_val (s : SlaveState) : (fallingScl s).val = s.val := by
  simp only [fallingScl]
  repeat' split
  all_goals rfl

/-- A latched stop flag survives every handler reaction. -/
theorem stop_persists (s : SlaveState) (e : Event) (h : s.stop = true) :
    (step s e).stop = true := by
  cases e with
  | startE => simpa [step, detectStart] using h
  | stopE => simp [step, detectStop]
  | fallE => rw [step, fallingScl_stop]; exact h
  | riseE sda => rw [step, risingScl_stop]; exact h

/-! ## C7: construction -/

/-- C7: construction succeeds for every address in [0,0x7F] and fails with
the configuration error (raised `Exception`) for every address above 0x7F,
producing no state. -/
theorem c7_construction (a : Nat) :
    (a ≤ 0x7f → mkI2cSlave a = Except.ok (initState a)) ∧
    (a > 0x7f → mkI2cSlave a =
      Except.error ("I2C can only accept addresses of 7 bits: 0x" ++ toString a)) := by
  refine ⟨fun h => ?_, fun h => ?_⟩
  · simp only [mkI2cSlave]
    rw [if_neg (by omega)]
  · simp only [mkI2cSlave]
    rw [if_pos (by omega)]

/-- C7 witness: address 0x45 constructs, address 0x80 raises. -/
theorem c7_witness :
    mkI2cSlave 0x45 = Except.ok (initState 0x45) ∧
    mkI2cSlave 0x80 =
      Except.error ("I2C can only accept addresses of 7 bits: 0x" ++ toString (0x80 : Nat)) :=
  ⟨(c7_construction 0x45).1 (by decide), (c7_construction 0x80).2 (by decide)⟩

/-! ## C8: stop detection -/

/-- C8: a Stop condition sets the stop flag and changes nothing else
(bit counter, phase flags, match flag, data register, shift register,
decoded address, start flag and driven line are all untouched), and once
set the stop flag is never cleared by any handler reaction. -/
theorem c8_stop_effect (s : SlaveState) (e : Event) :
    (detectStop s).stop = true ∧
    (detectStop s).bit_pos = s.bit_pos ∧
    (detectStop s).address_phase = s.address_phase ∧
    (detectStop s).read_phase = s.read_phase ∧
    (detectStop s).write_phase = s.write_phase ∧
    (detectStop s).active = s.active ∧
    (detectStop s).val = s.val ∧
    (detectStop s).recv_byte = s.recv_byte ∧
    (detectStop s).recv_addr = s.recv_addr ∧
    (detectStop s).start = s.start ∧
    (detectStop s).sda_i = s.sda_i ∧
    (s.stop = true → (step s e).stop = true) :=
  ⟨rfl, rfl, rfl, rfl, rfl, rfl, rfl, rfl, rfl, rfl, rfl, stop_persists s e⟩

/-- C8 witness: from a concrete state with the stop flag latched, a falling
clock edge leaves it set, and a Stop on the initial state sets it without
moving the bit counter. -/
theorem c8_witness :
    (step (detectStop (initState 0x45)) Event.fallE).stop = true ∧
    (detectStop (initState 0x45)).bit_pos = (initState 0x45).bit_pos :=
  ⟨(c8_stop_effect (detectStop (initState 0x45)) Event.fallE).2.2.2.2.2.2.2.2.2.2.2 rfl,
   (c8_stop_effect (initState 0x45) Event.fallE).2.1⟩

/-! ## C4: phase-flag combinations -/

/-- C4 counterexample: after a Start and the eight bits of the matched read
address byte `0x8B` (a reachable state of the slave constructed at `0x45`),
`address_phase` and `read_phase` hold simultaneously — and a Start condition
fired there still leaves `read_phase` set, so Start does not clear the phase
flags. -/
theorem c4_counterexample :
    (run (initState 0x45) (addrEvents 0x8B)).address_phase = true ∧
    (run (initState 0x45) (addrEvents 0x8B)).read_phase = true ∧
    (step (run (initState 0x45) (addrEvents 0x8B)) Event.startE).read_phase = true ∧
    (step (run (initState 0x45) (addrEvents 0x8B)) Event.startE).address_phase = true := by
  refine ⟨?_, ?_, ?_, ?_⟩ <;> decide

/-- C4 amended: a Start condition sets the start-pending flag, resets the
bit counter, re-enters the address phase and clears the match flag, but
leaves `read_phase` and `write_phase` (and every other field) unchanged;
consequently `address_phase` does co-hold with `read_phase` in reachable
states (between the address byte's 8th and 9th rising edges, and after a
mid-transaction Start). -/
theorem c4_amended :
    (∀ s : SlaveState,
      (detectStart s).start = true ∧
      (detectStart s).bit_pos = 0 ∧
      (detectStart s).address_phase = true ∧
      (detectStart s).active = false ∧
      (detectStart s).read_phase = s.read_phase ∧
      (detectStart s).write_phase = s.write_phase ∧
      (detectStart s).stop = s.stop ∧
      (detectStart s).val = s.val ∧
      (detectStart s).recv_byte = s.recv_byte ∧
      (detectStart s).recv_addr = s.recv_addr ∧
      (detectStart s).sda_i = s.sda_i) ∧
    (∃ s, Reachable s ∧ s.address_phase = true ∧ s.read_phase = true) := by
  refine ⟨fun s => ⟨rfl, rfl, rfl, rfl, rfl, rfl, rfl, rfl, rfl, rfl, rfl⟩, ?_⟩
  exact ⟨run (initState 0x45) (addrEvents 0x8B),
    ⟨0x45, addrEvents 0x8B, by decide, rfl⟩, by decide, by decide⟩

/-! ## C2: acknowledge behaviour on a mismatched write address -/

/-- C2 counterexample: slave at `0x45`, first post-Start byte `0x10`
(address `0x08`, write).  At that byte's acknowledge slot — the falling
clock edge advancing `bit_pos` to 9 — the slave pulls the driven data line
low (`sda_i = 0`), i.e. it acknowledges a byte addressed to someone else,
refuting "the driven line stays released for a mismatched address". -/
theorem c2_counterexample :
    (run (initState 0x45) (addrEvents 0x10 ++ [Event.fallE])).bit_pos = 9 ∧
    (run (initState 0x45) (addrEvents 0x10 ++ [Event.fallE])).active = false ∧
    (run (initState 0x45) (addrEvents 0x10 ++ [Event.fallE])).write_phase = true ∧
    (run (initState 0x45) (addrEvents 0x10 ++ [Event.fallE])).sda_i = 0 := by
  refine ⟨?_, ?_, ?_, ?_⟩ <;> decide

/-! ## C1: address round trip -/

/-- Bit-level decode facts for a write address byte `a<<1`: its low bit is 0,
reassembling its eight MSB-first bits reproduces it, and its top seven bits
are `a`.  Checked for all 7-bit `a`. -/
theorem decode_write : ∀ a < 128,
    bitOf (a <<< 1) 0 = 0 ∧
    bitOf (a <<< 1) 7 <<< 7 ||| bitOf (a <<< 1) 6 <<< 6 ||| bitOf (a <<< 1) 5 <<< 5 |||
      bitOf (a <<< 1) 4 <<< 4 ||| bitOf (a <<< 1) 3 <<< 3 ||| bitOf (a <<< 1) 2 <<< 2 |||
      bitOf (a <<< 1) 1 <<< 1 = a <<< 1 ∧
    (a <<< 1) >>> 1 = a := by decide

/-- Bit-level decode facts for a read address byte `(a<<1)|1`: its low bit
is 1, reassembling its eight MSB-first bits reproduces it, and its top seven
bits are `a`.  Checked for all 7-bit `a`. -/
theorem decode_read : ∀ a < 128,
    bitOf (a <<< 1 ||| 1) 0 = 1 ∧
    bitOf (a <<< 1 ||| 1) 7 <<< 7 ||| bitOf (a <<< 1 ||| 1) 6 <<< 6 |||
      bitOf (a <<< 1 ||| 1) 5 <<< 5 ||| bitOf (a <<< 1 ||| 1) 4 <<< 4 |||
      bitOf (a <<< 1 ||| 1) 3 <<< 3 ||| bitOf (a <<< 1 ||| 1) 2 <<< 2 |||
      bitOf (a <<< 1 ||| 1) 1 <<< 1 ||| 1 = a <<< 1 ||| 1 ∧
    (a <<< 1 ||| 1) >>> 1 = a := by decide

/-- C1: feeding the first post-Start byte `(a<<1)|d` bit by bit, once its
`bit_pos` reaches 8 the slave has set `active` to whether `a` equals its own
address, `read_phase` iff `d = 1` and `write_phase` iff `d = 0`, with the
full byte in the shift register and the decoded address — its top seven
bits — recorded in `recv_addr`. -/
theorem c1_address_roundtrip (own a d : Nat) (hown : own ≤ 0x7f) (ha : a ≤ 0x7f)
    (hd : d ≤ 1) :
    (run (initState own) (addrEvents ((a <<< 1) ||| d))).bit_pos = 8 ∧
    (run (initState own) (addrEvents ((a <<< 1) ||| d))).active = decide (a = own) ∧
    (run (initState own) (addrEvents ((a <<< 1) ||| d))).read_phase = decide (d = 1) ∧
    (run (initState own) (addrEvents ((a <<< 1) ||| d))).write_phase = decide (d = 0) ∧
    (run (initState own) (addrEvents ((a <<< 1) ||| d))).recv_byte = (a <<< 1) ||| d ∧
    (run (initState own) (addrEvents ((a <<< 1) ||| d))).recv_addr = some a := by
  interval_cases d
  · obtain ⟨hb0, hasm, hsh⟩ := decode_write a (by omega)
    simp [run, addrEvents, byteEvents, step, detectStart, fallingScl, risingScl, initState,
      hb0]
    refine ⟨?_, hasm, ?_⟩
    · rw [hasm, hsh, and_0x7f_eq_self hown, beq_eq_decide]
      exact decide_eq_decide.mpr Iff.rfl
    · rw [hasm, hsh]
  · obtain ⟨hb0, hasm, hsh⟩ := decode_read a (by omega)
    simp [run, addrEvents, byteEvents, step, detectStart, fallingScl, risingScl, initState,
      hb0]
    refine ⟨?_, hasm, ?_⟩
    · rw [hasm, hsh, and_0x7f_eq_self hown, beq_eq_decide]
      exact decide_eq_decide.mpr Iff.rfl
    · rw [hasm, hsh]

/-- C1 witness: slave at 0x45 receiving read address byte 0x8B = (0x45<<1)|1
matches and enters the read phase. -/
theorem c1_witness :
    (run (initState 0x45) (addrEvents ((0x45 <<< 1) ||| 1))).active = decide ((0x45:Nat) = 0x45) ∧
    (run (initState 0x45) (addrEvents ((0x45 <<< 1) ||| 1))).read_phase = decide ((1:Nat) = 1) ∧
    (run (initState 0x45) (addrEvents ((0x45 <<< 1) ||| 1))).recv_addr = some 0x45 := by
  have h := c1_address_roundtrip 0x45 0x45 1 (by decide) (by decide) (by decide)
  exact ⟨h.2.1, h.2.2.1, h.2.2.2.2.2⟩

/-- C2 amended: for a mismatched write address byte `a<<1` (`a ≠ own`), the
slave still sets `write_phase` at bit 8, and at that byte's acknowledge slot
(the falling edge advancing `bit_pos` to 9) it pulls the driven line low —
the acknowledge condition `(address_phase ∧ active) ∨ write_phase` does not
require an address match, so a mismatched write address is acknowledged
rather than left released. -/
theorem c2_amended (own a : Nat) (hown : own ≤ 0x7f) (ha : a ≤ 0x7f) (hne : a ≠ own) :
    (run (initState own) (addrEvents (a <<< 1) ++ [Event.fallE])).bit_pos = 9 ∧
    (run (initState own) (addrEvents (a <<< 1) ++ [Event.fallE])).active = false ∧
    (run (initState own) (addrEvents (a <<< 1) ++ [Event.fallE])).write_phase = true ∧
    (run (initState own) (addrEvents (a <<< 1) ++ [Event.fallE])).sda_i = 0 := by
  obtain ⟨hb0, hasm, hsh⟩ := decode_write a (by omega)
  simp [run, addrEvents, byteEvents, step, detectStart, fallingScl, risingScl, initState,
    hb0]
  rw [hasm, hsh, and_0x7f_eq_self hown]
  exact hne

/-- C2 amended witness: slave at 0x45, write byte 0x10 (address 0x08):
no match, yet the ACK slot drives the line low. -/
theorem c2_amended_witness :
    (run (initState 0x45) (addrEvents (0x08 <<< 1) ++ [Event.fallE])).active = false ∧
    (run (initState 0x45) (addrEvents (0x08 <<< 1) ++ [Event.fallE])).sda_i = 0 := by
  have h := c2_amended 0x45 0x08 (by decide) (by decide) (by decide)
  exact ⟨h.2.1, h.2.2.2⟩

/-! ## C9: read phase on a mismatched address -/

/-- C9: after a mismatched read address byte `(a<<1)|1` (`a ≠ own`), its ACK
slot, and two falling edges of the first data byte, the slave is in the read
phase with `active = false` and is nevertheless driving bit `8 - bit_pos`
of the data register (bit 6 of `0x81`, i.e. pulling the line low): the
falling-edge bit driving is conditioned only on `read_phase`, never on the
address match. -/
theorem c9_mismatched_read_drives (own a : Nat) (hown : own ≤ 0x7f) (ha : a ≤ 0x7f)
    (hne : a ≠ own) :
    (run (initState own) (addrEvents (a <<< 1 ||| 1) ++ ackEvents 0 ++
        [Event.fallE, Event.riseE 1, Event.fallE])).active = false ∧
    (run (initState own) (addrEvents (a <<< 1 ||| 1) ++ ackEvents 0 ++
        [Event.fallE, Event.riseE 1, Event.fallE])).read_phase = true ∧
    (run (initState own) (addrEvents (a <<< 1 ||| 1) ++ ackEvents 0 ++
        [Event.fallE, Event.riseE 1, Event.fallE])).address_phase = false ∧
    (run (initState own) (addrEvents (a <<< 1 ||| 1) ++ ackEvents 0 ++
        [Event.fallE, Event.riseE 1, Event.fallE])).bit_pos = 2 ∧
    (run (initState own) (addrEvents (a <<< 1 ||| 1) ++ ackEvents 0 ++
        [Event.fallE, Event.riseE 1, Event.fallE])).val = 0x81 ∧
    (run (initState own) (addrEvents (a <<< 1 ||| 1) ++ ackEvents 0 ++
        [Event.fallE, Event.riseE 1, Event.fallE])).sda_i = (0x81 >>> 6) &&& 1 := by
  obtain ⟨hb0, hasm, hsh⟩ := decode_read a (by omega)
  simp [run, addrEvents, byteEvents, ackEvents, step, detectStart, fallingScl, risingScl,
    initState, hb0, hasm, hsh, and_0x7f_eq_self hown, hne]

/-- C9 witness: slave at 0x45, read byte 0x11 (address 0x08, read): no
match, yet the slave enters the read phase and drives a data-register bit
low on the second data bit slot. -/
theorem c9_witness :
    (run (initState 0x45) (addrEvents (0x08 <<< 1 ||| 1) ++ ackEvents 0 ++
        [Event.fallE, Event.riseE 1, Event.fallE])).read_phase = true ∧
    (run (initState 0x45) (addrEvents (0x08 <<< 1 ||| 1) ++ ackEvents 0 ++
        [Event.fallE, Event.riseE 1, Event.fallE])).sda_i = (0x81 >>> 6) &&& 1 := by
  have h := c9_mismatched_read_drives 0x45 0x08 (by decide) (by decide) (by decide)
  exact ⟨h.2.1, h.2.2.2.2.2⟩

/-! ## C5: bit counter -/

/-- The falling-edge handler's effect on the bit counter. -/
theorem fallingScl_bit_pos (s : SlaveState) :
    (fallingScl s).bit_pos =
      if s.start || !(s.bit_pos == 0) then
        (if s.bit_pos == 9 then 1 else s.bit_pos + 1)
      else s.bit_pos := by
  simp only [fallingScl]
  repeat' split
  all_goals simp_all

/-- The falling-edge handler always leaves the start-pending flag clear:
it clears it while active, and while idle it was already clear. -/
theorem fallingScl_start (s : SlaveState) : (fallingScl s).start = false := by
  simp only [fallingScl]
  repeat' split
  all_goals simp_all

/-- One step keeps the bit counter within [0,9]. -/
theorem step_bit_pos_le (s : SlaveState) (e : Event) (h : s.bit_pos ≤ 9) :
    (step s e).bit_pos ≤ 9 := by
  cases e with
  | startE => simp [step, detectStart]
  | stopE => simpa [step, detectStop] using h
  | fallE =>
      rw [step, fallingScl_bit_pos]
      repeat' split
      all_goals simp_all
      omega
  | riseE sda => rw [step, risingScl_bit_pos]; exact h

/-- A run keeps the bit counter within [0,9]. -/
theorem run_bit_pos_le (es : List Event) (s : SlaveState) (h : s.bit_pos ≤ 9) :
    (run s es).bit_pos ≤ 9 := by
  induction es generalizing s with
  | nil => exact h
  | cons e es ih => exact ih (step s e) (step_bit_pos_le s e h)

/-- Only a Start condition can bring the bit counter (back) to 0. -/
theorem bit_pos_zero_only_start (s : SlaveState) (e : Event)
    (h : (step s e).bit_pos = 0) : s.bit_pos = 0 ∨ e = Event.startE := by
  cases e with
  | startE => exact Or.inr rfl
  | stopE => exact Or.inl (by simpa [step, detectStop] using h)
  | fallE =>
      rw [step, fallingScl_bit_pos] at h
      left
      repeat' split at h
      all_goals simp_all
  | riseE sda => rw [step, risingScl_bit_pos] at h; exact Or.inl h

/-- While the slave is active (start pending or counter nonzero), a falling
edge advances the counter by exactly one step (9 wraps to 1) and clears the
start-pending flag. -/
theorem fallingScl_advance (s : SlaveState) (h : s.start = true ∨ s.bit_pos ≠ 0) :
    (fallingScl s).bit_pos = (if s.bit_pos = 9 then 1 else s.bit_pos + 1) ∧
    (fallingScl s).start = false := by
  refine ⟨?_, fallingScl_start s⟩
  rw [fallingScl_bit_pos]
  have hc : (s.start || !(s.bit_pos == 0)) = true := by
    rcases h with h | h <;> simp [h]
  rw [if_pos hc]
  split
  · rw [if_pos (by simp_all)]
  · rw [if_neg (by simp_all)]

/-- C5: in every reachable state the bit counter is in [0,9]; a step brings
it to 0 only via a Start condition; and while active (start pending or
counter nonzero) a falling clock edge moves it by exactly one step — 9
wraps to 1, otherwise +1 — and clears the start-pending flag. -/
theorem c5_bit_counter (s : SlaveState) (h : Reachable s) :
    s.bit_pos ≤ 9 ∧
    (∀ e, (step s e).bit_pos = 0 → s.bit_pos = 0 ∨ e = Event.startE) ∧
    ((s.start = true ∨ s.bit_pos ≠ 0) →
      (fallingScl s).bit_pos = (if s.bit_pos = 9 then 1 else s.bit_pos + 1) ∧
      (fallingScl s).start = false) := by
  obtain ⟨a, es, _, rfl⟩ := h
  exact ⟨run_bit_pos_le es (initState a) (by simp [initState]),
    fun e => bit_pos_zero_only_start _ e,
    fallingScl_advance _⟩

/-- C5 witness: the initial state at address 0x45 is reachable (empty
trace); its counter is within bounds, and after a Start the falling edge
advances the counter to 1 with the start flag cleared. -/
theorem c5_witness :
    (initState 0x45).bit_pos ≤ 9 ∧
    (fallingScl (detectStart (initState 0x45))).bit_pos = 1 ∧
    (fallingScl (detectStart (initState 0x45))).start = false := by
  have h1 := c5_bit_counter (initState 0x45) ⟨0x45, [], by decide, rfl⟩
  have h2 := c5_bit_counter (detectStart (initState 0x45))
    ⟨0x45, [Event.startE], by decide, rfl⟩
  have h3 := h2.2.2 (Or.inl rfl)
  exact ⟨h1.1, by rw [h3.1]; decide, h3.2⟩

/-! ## C6: read-phase bit driving -/

/-- C6: in the read phase of a data byte (read set, address phase over,
write clear), a falling clock edge that advances the counter into [1,8]
drives bit `8 - bit_pos` of the data register onto the line (MSB first),
and the falling edge that advances it to 9 leaves the line released so the
master may ACK or NACK. -/
theorem c6_read_drive (s : SlaveState) (hr : s.read_phase = true)
    (hap : s.address_phase = false) (hw : s.write_phase = false) :
    (1 ≤ (fallingScl s).bit_pos → (fallingScl s).bit_pos ≤ 8 →
      (fallingScl s).sda_i = (s.val >>> (8 - (fallingScl s).bit_pos)) &&& 1) ∧
    ((fallingScl s).bit_pos = 9 → (fallingScl s).sda_i = 1) := by
  simp only [fallingScl, hr, hap, hw]
  repeat' split
  all_goals simp_all
  all_goals omega

/-- C6 witness: from the ACK slot of a read transaction the next falling
edge wraps to bit slot 1 and drives bit 7 of the data register. -/
theorem c6_witness :
    1 ≤ (fallingScl (readSteady 0x45 0x81 0 1 (some 0x45))).bit_pos ∧
    (fallingScl (readSteady 0x45 0x81 0 1 (some 0x45))).bit_pos ≤ 8 ∧
    (fallingScl (readSteady 0x45 0x81 0 1 (some 0x45))).sda_i =
      ((readSteady 0x45 0x81 0 1 (some 0x45)).val >>>
        (8 - (fallingScl (readSteady 0x45 0x81 0 1 (some 0x45))).bit_pos)) &&& 1 := by
  have h := c6_read_drive (readSteady 0x45 0x81 0 1 (some 0x45)) rfl rfl rfl
  exact ⟨by decide, by decide, h.1 (by decide) (by decide)⟩

/-! ## C3: the data register -/

/-- One full read data-byte slot from the ACK slot of a read transaction:
the slave transmits the register bit by bit and, at the next ACK slot's
rising edge, increments the register by one — with no reduction mod 256. -/
theorem dataCycle_run (own v rb sd : Nat) (ra : Option Nat) :
    run (readSteady own v rb sd ra) dataCycle = readSteady own (v + 1) 0 1 ra := by
  simp [dataCycle, byteEvents, ackEvents, run, step, fallingScl, risingScl, readSteady,
    bitOf]

/-- Running `n` consecutive read data-byte slots adds `n` to the data register. -/
theorem nCycles_run (own : Nat) (ra : Option Nat) (n v : Nat) :
    run (readSteady own v 0 1 ra) (nCycles n) = readSteady own (v + n) 0 1 ra := by
  induction n generalizing v with
  | zero => simp [nCycles, run]
  | succ n ih =>
      have hsplit : nCycles (n + 1) = dataCycle ++ nCycles n := by
        simp [nCycles, List.replicate_succ]
      have harith : v + 1 + n = v + (n + 1) := by omega
      rw [hsplit, run_append, dataCycle_run, ih, harith]

/-- The matched read transaction at 0x45 sits at the first data byte's ACK
slot with the register already bumped once, to 0x82. -/
theorem c3_entry :
    run (initState 0x45) (addrEvents 0x8B ++ ackEvents 0 ++ dataCycle) =
      readSteady 0x45 0x82 0 1 (some 0x45) := by decide

/-- C3 counterexample: in the read transaction at address 0x45, after 126
completed read bytes the register holds 0xFF; completing the byte that
transmits 0xFF leaves the register at 0x100, not 0x00 — the increment is
not reduced mod 256. -/
theorem c3_counterexample :
    (run (initState 0x45)
        (addrEvents 0x8B ++ ackEvents 0 ++ dataCycle ++ nCycles 125)).val = 0xFF ∧
    (run (initState 0x45)
        (addrEvents 0x8B ++ ackEvents 0 ++ dataCycle ++ nCycles 125 ++ dataCycle)).val =
      0x100 ∧
    (run (initState 0x45)
        (addrEvents 0x8B ++ ackEvents 0 ++ dataCycle ++ nCycles 125 ++ dataCycle)).val ≠
      (0xFF + 1) % 256 := by
  have h125 : run (initState 0x45)
      (addrEvents 0x8B ++ ackEvents 0 ++ dataCycle ++ nCycles 125) =
      readSteady 0x45 0xFF 0 1 (some 0x45) := by
    rw [run_append, c3_entry, nCycles_run]
  have hfull : run (initState 0x45)
      (addrEvents 0x8B ++ ackEvents 0 ++ dataCycle ++ nCycles 125 ++ dataCycle) =
      readSteady 0x45 0x100 0 1 (some 0x45) := by
    rw [run_append, h125, dataCycle_run]
  rw [h125, hfull]
  refine ⟨rfl, rfl, by decide⟩

/-- C3 amended: the data register is mutated only by a rising clock edge at
`bit_pos = 9` with the read phase set and the address phase over — never by
Start, Stop, falling edges or any write-phase byte — and each such
completion increments it by exactly 1 as an unbounded integer, regardless
of the sampled ACK/NACK bit; there is no mod-256 reduction (only the low
eight bits are ever driven onto the line). -/
theorem c3_amended (s : SlaveState) (e : Event) :
    (step s e).val =
      match e with
      | Event.riseE _ =>
          if s.read_phase && !s.address_phase && s.bit_pos == 9 then s.val + 1
          else s.val
      | _ => s.val := by
  cases e with
  | startE => rfl
  | stopE => rfl
  | fallE => exact fallingScl_val s
  | riseE sda =>
      simp only [step, risingScl]
      repeat' split
      all_goals simp_all

/-! ## C10: the data-register seed -/

/-- C10: construction seeds the data register with the fixed value 0x81 for
every address, the register still holds 0x81 when the first read data byte
begins, and in a matched read transaction started fresh after construction
the eight bits driven during that first data byte spell exactly 0x81, MSB
first. -/
theorem c10_seed :
    (∀ a : Nat, (initState a).val = 0x81) ∧
    (run (initState 0x45) (addrEvents 0x8B ++ ackEvents 0)).val = 0x81 ∧
    (run (initState 0x45) (firstReadBitTrace 1)).sda_i = bitOf 0x81 7 ∧
    (run (initState 0x45) (firstReadBitTrace 2)).sda_i = bitOf 0x81 6 ∧
    (run (initState 0x45) (firstReadBitTrace 3)).sda_i = bitOf 0x81 5 ∧
    (run (initState 0x45) (firstReadBitTrace 4)).sda_i = bitOf 0x81 4 ∧
    (run (initState 0x45) (firstReadBitTrace 5)).sda_i = bitOf 0x81 3 ∧
    (run (initState 0x45) (firstReadBitTrace 6)).sda_i = bitOf 0x81 2 ∧
    (run (initState 0x45) (firstReadBitTrace 7)).sda_i = bitOf 0x81 1 ∧
    (run (initState 0x45) (firstReadBitTrace 8)).sda_i = bitOf 0x81 0 := by
  refine ⟨fun a => rfl, ?_, ?_, ?_, ?_, ?_, ?_, ?_, ?_, ?_⟩ <;> decide
